import Mathlib

/-!
Verification of the Libra benchmark library (`src/benchmark/src/lib.rs`).

The Rust code is shallowly embedded as follows:
* `u64` / `u128` / 64-bit `usize` values are `Nat`; arithmetic that can
  overflow in Rust (release profile: two's-complement wrap-around) is written
  with an explicit `% 2 ^ w` or via the `wrapping_sub` helpers below.
* `HashMap<AccountAddress, u64>` is a function `Nat → Option Nat`
  (`AccountAddress` is abstracted to `Nat`); `get` is application,
  `get_mut` followed by an assignment is `updateMap`.
* A Rust `panic!` / failed `assert!` / failed `expect` is modelled explicitly.
  For `check_txn_results` the panic outcome (`CheckResult.panicked`) carries
  the prior-sequence table and the senders slice as they stand at the moment
  the panic is raised, because mutations performed through `&mut` references
  before the panic remain visible to the memory the caller owns.
* The network-facing collaborators (`submit_and_wait_requests`,
  `sync_account_sequence_number`, from the `grpc_helpers` module, which is
  not part of the excerpted sources) only produce data consumed by the code
  under verification: their outputs (accepted-response count, durations,
  synced sequence numbers) are passed in as a `RoundOracle` record.
* On a 64-bit host `usize` is 64 bits wide, so the final
  `try_into::<usize>()` conversions in `check_txn_results` always succeed on
  values already reduced `% 2 ^ 64`; they are therefore the identity here.
-/

/-- Modulus of Rust `u64` (and of 64-bit `usize`). -/
def U64 : Nat := 2 ^ 64

/-- Modulus of Rust `u128`. -/
def U128 : Nat := 2 ^ 128

/-- Rust release-profile wrapping subtraction on `u64`/`usize`
(for `a b < U64` this is two's-complement `a - b`). -/
def wrapping_sub_u64 (a b : Nat) : Nat := (a + U64 - b) % U64

/-- Rust release-profile wrapping subtraction on `u128`. -/
def wrapping_sub_u128 (a b : Nat) : Nat := (a + U128 - b) % U128

/-- `client::AccountData`, restricted to the fields `check_txn_results`
reads or writes: the address and the locally tracked sequence number.
(The key pair and status fields are never touched by the verified code.) -/
structure AccountData where
  address : Nat
  sequence_number : Nat
deriving DecidableEq

/-- `HashMap<AccountAddress, u64>`: a finite map, embedded extensionally. -/
def SeqMap : Type := Nat → Option Nat

/-- Writing through the reference obtained by `get_mut` / `insert`. -/
def updateMap (m : SeqMap) (k v : Nat) : SeqMap :=
  fun x => if x = k then some v else m x

/-- `BenchSummary`: counts and durations of one round. -/
structure BenchSummary where
  num_submitted : Nat
  num_accepted : Nat
  num_committed : Nat
  submit_duration_ms : Nat
  wait_duration_ms : Nat
deriving DecidableEq

/-- `BenchSummary::has_rejected_txns`:
`self.num_submitted - self.num_accepted > 0` on `usize`. -/
def has_rejected_txns (s : BenchSummary) : Bool :=
  decide (0 < wrapping_sub_u64 s.num_submitted s.num_accepted)

/-- `BenchSummary::has_uncommitted_txns`:
`self.num_accepted - self.num_committed > 0` on `usize`. -/
def has_uncommitted_txns (s : BenchSummary) : Bool :=
  decide (0 < wrapping_sub_u64 s.num_accepted s.num_committed)

/-- `BenchSummary::req_throughput`: `assert!(submit_duration_ms > 0)` then
`num_accepted * 1000 / submit_duration_ms`.  The failed assertion is `none`;
the `f64` arithmetic is modelled by exact rational arithmetic applied to the
same expression. -/
def req_throughput (s : BenchSummary) : Option Rat :=
  if s.submit_duration_ms = 0 then none
  else some ((s.num_accepted : Rat) * 1000 / (s.submit_duration_ms : Rat))

/-- The `Benchmarker` state: the fields the verified methods read or write.
(The client connection vector is only consumed by the network collaborators
and is omitted; its length plays no role in the claims below.) -/
structure Benchmarker where
  stagger_range_ms : Nat
  prev_sequence_numbers : SeqMap
  submit_rate : Nat

/-- Outcome of `Benchmarker::check_txn_results`.  `ok` returns the updated
prior-sequence table, the updated senders slice, and the
`(committed, uncommitted)` pair; `panicked` records the table and the
senders slice as they stand in memory when the panic is raised. -/
inductive CheckResult where
  | ok (prev : SeqMap) (senders : List AccountData) (committed uncommitted : Nat)
  | panicked (prev : SeqMap) (senders : List AccountData)

/-- Whether the call returned normally. -/
def CheckResult.isOkB : CheckResult → Bool
  | .ok _ _ _ _ => true
  | .panicked _ _ => false

/-- The prior-sequence table held in the result. -/
def CheckResult.prevOf : CheckResult → SeqMap
  | .ok p _ _ _ => p
  | .panicked p _ => p

/-- The senders slice held in the result. -/
def CheckResult.sendersOf : CheckResult → List AccountData
  | .ok _ s _ _ => s
  | .panicked _ s => s

/-- The committed count of a normal return (default `0` on panic). -/
def CheckResult.committedOf : CheckResult → Nat
  | .ok _ _ c _ => c
  | .panicked _ _ => 0

/-- The uncommitted count of a normal return (default `0` on panic). -/
def CheckResult.uncommittedOf : CheckResult → Nat
  | .ok _ _ _ u => u
  | .panicked _ _ => 0

/-- The per-sender loop of `Benchmarker::check_txn_results`
(`for sender in senders.iter_mut() { ... }`), accumulating the `u64`
counters `committed_txns` / `uncommitted_txns` with wrap-around.
In the source order: look up the sender in `prev_sequence_numbers`
(`expect`), look it up in the synced map (`expect`),
`assert!(sender.sequence_number >= sync)`, `assert!(sync >= prev)`,
accumulate, then write `sync` back through both mutable references. -/
def checkTxnLoop (sync : SeqMap) :
    SeqMap → Nat → Nat → List AccountData → CheckResult
  | prev, committed, uncommitted, [] => .ok prev [] committed uncommitted
  | prev, committed, uncommitted, sender :: rest =>
    match prev sender.address, sync sender.address with
    | none, _ => .panicked prev (sender :: rest)
    | some _, none => .panicked prev (sender :: rest)
    | some prior, some synced =>
      if sender.sequence_number < synced then .panicked prev (sender :: rest)
      else if synced < prior then .panicked prev (sender :: rest)
      else
        match checkTxnLoop sync (updateMap prev sender.address synced)
            ((committed + (synced - prior)) % U64)
            ((uncommitted + (sender.sequence_number - synced)) % U64) rest with
        | .ok p s c u =>
          .ok p ({ sender with sequence_number := synced } :: s) c u
        | .panicked p s =>
          .panicked p ({ sender with sequence_number := synced } :: s)

/-- `Benchmarker::check_txn_results`: run the reconciliation loop starting
from the stored prior-sequence table with both counters at `0`. -/
def check_txn_results (b : Benchmarker) (senders : List AccountData)
    (sync_sequence_numbers : SeqMap) : CheckResult :=
  checkTxnLoop sync_sequence_numbers b.prev_sequence_numbers 0 0 senders

/-- The duration computation at the end of `Benchmarker::submit_requests`:
`delay_duration_ms` starts at `self.stagger_range_ms` and is folded with
`min` over the delays reported by the joined worker threads; the raw
elapsed time is reduced by it only when it stayed strictly below
`stagger_range_ms` (`u128` subtraction). -/
def submit_requests_duration (stagger_range_ms raw_elapsed_ms : Nat)
    (delays : List Nat) : Nat :=
  let delay_duration_ms := delays.foldl min stagger_range_ms
  if delay_duration_ms < stagger_range_ms then
    wrapping_sub_u128 raw_elapsed_ms delay_duration_ms
  else raw_elapsed_ms

/-- Outputs of the network-facing collaborators for one round: the number of
accepted responses gathered by `submit_requests`, both measured durations,
and the synced sequence numbers gathered by `wait_txns_committed`. -/
structure RoundOracle where
  num_accepted : Nat
  submit_duration_ms : Nat
  wait_duration_ms : Nat
  sync_sequence_numbers : SeqMap

/-- `Benchmarker::submit_requests_and_wait_txns_committed` with the network
results supplied by `o`: resolve the submit rate, reconcile via
`check_txn_results`, and assemble the `BenchSummary`.  `none` models the
panic propagating out of `check_txn_results`. -/
def submit_requests_and_wait_txns_committed (b : Benchmarker)
    (num_requests : Nat) (senders : List AccountData)
    (submit_rate : Option Nat) (o : RoundOracle) :
    Option (Benchmarker × List AccountData × BenchSummary) :=
  let _rate := submit_rate.getD b.submit_rate
  match check_txn_results b senders o.sync_sequence_numbers with
  | .panicked _ _ => none
  | .ok p s c _u =>
    some ({ b with prev_sequence_numbers := p }, s,
      ⟨num_requests, o.num_accepted, c, o.submit_duration_ms,
        o.wait_duration_ms⟩)

/-- `std::u64::MAX`, the flood rate used for minting. -/
def u64_max : Nat := U64 - 1

/-- `Benchmarker::mint_accounts`: save and force `stagger_range_ms := 1`,
run the round with the flood rate, restore `stagger_range_ms`, then panic
(`none`) when the round has rejected or uncommitted transactions. -/
def mint_accounts (b : Benchmarker) (num_mint_requests : Nat)
    (faucet_account : AccountData) (o : RoundOracle) :
    Option (Benchmarker × AccountData) :=
  let saved_stagger_range_ms := b.stagger_range_ms
  let b1 := { b with stagger_range_ms := 1 }
  match submit_requests_and_wait_txns_committed b1 num_mint_requests
      [faucet_account] (some u64_max) o with
  | none => none
  | some (b2, senders2, result) =>
    let b3 := { b2 with stagger_range_ms := saved_stagger_range_ms }
    if has_rejected_txns result || has_uncommitted_txns result then none
    else some (b3, senders2.headD faucet_account)

/-- The prior-sequence table after the reconciliation loop has processed a
prefix of senders (each entry overwritten with its synced value). -/
def reconcilePrev (sync : SeqMap) : SeqMap → List AccountData → SeqMap
  | prev, [] => prev
  | prev, a :: rest =>
    reconcilePrev sync (updateMap prev a.address ((sync a.address).getD 0)) rest

/-- A senders prefix after the reconciliation loop has processed it
(each local sequence number overwritten with its synced value). -/
def reconcileSenders (sync : SeqMap) : List AccountData → List AccountData
  | [] => []
  | a :: rest =>
    { a with sequence_number := (sync a.address).getD 0 } ::
      reconcileSenders sync rest

/-- The reconciliation loop passes a prefix without panicking: every sender
is present in both tables and satisfies both assertions, with the
prior-sequence table evolving as the loop runs. -/
def preOk (sync : SeqMap) : SeqMap → List AccountData → Bool
  | _, [] => true
  | prev, a :: rest =>
    match prev a.address, sync a.address with
    | some p, some q =>
      decide (q ≤ a.sequence_number) && decide (p ≤ q) &&
        preOk sync (updateMap prev a.address q) rest
    | _, _ => false

/-! Concrete inputs used by the counterexamples and witnesses below. -/

/-- A one-entry prior-sequence table: address `0` last synced at `5`. -/
def map5 : SeqMap := fun a => if a = 0 then some 5 else none

/-- A one-entry synced-sequence map: address `0` now synced at `8`. -/
def map8 : SeqMap := fun a => if a = 0 then some 8 else none

/-- The empty table (no account ever registered). -/
def mapNone : SeqMap := fun _ => none

/-- A benchmarker with stagger range 50 ms, rate 100, and `map5` as table. -/
def wexBench : Benchmarker := ⟨50, map5, 100⟩

/-- A benchmarker whose table already holds the synced value `8`. -/
def appBench : Benchmarker := ⟨50, map8, 100⟩

/-- Two accounts whose committed deltas sum to exactly `2 ^ 64`. -/
def ovPrev : SeqMap := fun a => if a ≤ 1 then some 0 else none

/-- Synced map for the overflow scenario: both accounts at `2 ^ 63`. -/
def ovSync : SeqMap := fun a => if a ≤ 1 then some (2 ^ 63) else none

/-- Senders for the overflow scenario. -/
def ovSenders : List AccountData := [⟨0, 2 ^ 63⟩, ⟨1, 2 ^ 63⟩]

/-- Benchmarker for the overflow scenario. -/
def ovBench : Benchmarker := ⟨50, ovPrev, 100⟩

/-- Prior table for the violation scenario: both accounts at `5`. -/
def vioPrev : SeqMap := fun a => if a ≤ 1 then some 5 else none

/-- Synced map for the violation scenario: account `0` advanced to `8`,
account `1` regressed to `3` (violating `synced ≥ prior`). -/
def vioSync : SeqMap :=
  fun a => if a = 0 then some 8 else if a = 1 then some 3 else none

/-- Senders for the violation scenario. -/
def vioSenders : List AccountData := [⟨0, 10⟩, ⟨1, 10⟩]

/-- Benchmarker for the violation scenario. -/
def vioBench : Benchmarker := ⟨50, vioPrev, 100⟩

/-- Oracle for a fully successful 3-request minting round. -/
def mintOkOracle : RoundOracle := ⟨3, 10, 20, map8⟩

/-- The benchmarker state after the successful minting round:
stagger range restored to 50, table entry advanced to 8, rate untouched. -/
def mintOkBench : Benchmarker := ⟨50, updateMap map5 0 8, 100⟩

/-- Oracle for a 3-request minting round with only one accepted request
(the faucet account stays synced at `5`). -/
def mintBadOracle : RoundOracle := ⟨1, 10, 20, map5⟩

/-- Oracle whose synced map is empty (validator knows no sender). -/
def emptyOracle : RoundOracle := ⟨0, 1, 1, mapNone⟩

/-! Arithmetic facts about the wrapping helpers. -/

lemma wrapping_sub_u64_of_le (a b : Nat) (hb : b ≤ a) (ha : a < U64) :
    wrapping_sub_u64 a b = a - b := by
  unfold wrapping_sub_u64
  have h1 : a + U64 - b = U64 + (a - b) := by omega
  rw [h1, Nat.add_mod_left]
  exact Nat.mod_eq_of_lt (by omega)

lemma wrapping_sub_u128_of_le (a b : Nat) (hb : b ≤ a) (ha : a < U128) :
    wrapping_sub_u128 a b = a - b := by
  unfold wrapping_sub_u128
  have h1 : a + U128 - b = U128 + (a - b) := by omega
  rw [h1, Nat.add_mod_left]
  exact Nat.mod_eq_of_lt (by omega)

/-- C5 counterexample: a summary with `num_submitted = 0 < num_accepted = 1`
makes `has_rejected_txns` return `true` (the `usize` subtraction wraps
around), although `num_submitted > num_accepted` is false, refuting the
claimed no-precondition equivalence. -/
theorem has_rejected_txns_wraps_cx :
    has_rejected_txns ⟨0, 1, 0, 1, 1⟩ = true ∧
      ¬ (BenchSummary.num_submitted ⟨0, 1, 0, 1, 1⟩ >
          BenchSummary.num_accepted ⟨0, 1, 0, 1, 1⟩) := by
  decide

/-- C5 (amended): for summaries whose counts satisfy
`num_committed ≤ num_accepted ≤ num_submitted < 2 ^ 64` — as holds for every
summary a real round produces — `has_rejected_txns` is `true` exactly when
`num_submitted > num_accepted` and `has_uncommitted_txns` is `true` exactly
when `num_accepted > num_committed`; without that precondition the `usize`
subtraction wraps around. -/
theorem bench_summary_predicates_iff (s : BenchSummary)
    (h1 : s.num_committed ≤ s.num_accepted)
    (h2 : s.num_accepted ≤ s.num_submitted)
    (h3 : s.num_submitted < U64) :
    (has_rejected_txns s = true ↔ s.num_submitted > s.num_accepted) ∧
      (has_uncommitted_txns s = true ↔ s.num_accepted > s.num_committed) := by
  unfold has_rejected_txns has_uncommitted_txns
  rw [wrapping_sub_u64_of_le _ _ h2 h3,
    wrapping_sub_u64_of_le _ _ h1 (lt_of_le_of_lt h2 h3)]
  constructor
  · simp only [decide_eq_true_eq]
    omega
  · simp only [decide_eq_true_eq]
    omega

/-- Witness for C5 (amended) at a concrete summary. -/
theorem bench_summary_predicates_iff_witness :
    (has_rejected_txns ⟨3, 2, 1, 1, 1⟩ = true ↔ (3 : Nat) > 2) ∧
      (has_uncommitted_txns ⟨3, 2, 1, 1, 1⟩ = true ↔ (2 : Nat) > 1) :=
  bench_summary_predicates_iff ⟨3, 2, 1, 1, 1⟩ (by decide) (by decide)
    (by decide)

/-- C8: `req_throughput` produces no numeric result exactly when
`submit_duration_ms = 0` (the `assert!` precondition fails), and for a
positive duration it returns `num_accepted * 1000 / submit_duration_ms`. -/
theorem req_throughput_spec (s : BenchSummary) :
    (req_throughput s = none ↔ s.submit_duration_ms = 0) ∧
      (0 < s.submit_duration_ms →
        req_throughput s =
          some ((s.num_accepted : Rat) * 1000 / (s.submit_duration_ms : Rat))) := by
  unfold req_throughput
  constructor
  · constructor
    · intro h
      by_contra hne
      rw [if_neg hne] at h
      exact Option.some_ne_none _ h
    · intro h
      rw [if_pos h]
  · intro h
    rw [if_neg (by omega)]

/-- Witness for C8 at a concrete summary (5 accepted in 2 ms → 2500 rps). -/
theorem req_throughput_spec_witness :
    0 < (2 : Nat) ∧
      req_throughput ⟨10, 5, 5, 2, 3⟩ =
        some (((5 : Nat) : Rat) * 1000 / ((2 : Nat) : Rat)) :=
  ⟨by decide, (req_throughput_spec ⟨10, 5, 5, 2, 3⟩).2 (by decide)⟩

/-! Facts about `List.foldl min`, used for the submission-duration claim. -/

lemma foldl_min_le_init (l : List Nat) : ∀ b : Nat, l.foldl min b ≤ b := by
  induction l with
  | nil => intro b; exact le_refl b
  | cons y ys ih =>
    intro b
    exact le_trans (ih (min b y)) (min_le_left _ _)

lemma foldl_min_le_mem (l : List Nat) :
    ∀ (b x : Nat), x ∈ l → l.foldl min b ≤ x := by
  induction l with
  | nil => intro b x hx; cases hx
  | cons y ys ih =>
    intro b x hx
    rcases List.mem_cons.mp hx with h | h
    · subst h
      exact le_trans (foldl_min_le_init ys (min b x)) (min_le_right _ _)
    · exact ih (min b y) x h

lemma le_foldl_min (l : List Nat) :
    ∀ (b c : Nat), c ≤ b → (∀ x ∈ l, c ≤ x) → c ≤ l.foldl min b := by
  induction l with
  | nil => intro b c hc _; exact hc
  | cons y ys ih =>
    intro b c hc h
    exact ih (min b y) c (le_min hc (h y (List.mem_cons_self _ _)))
      fun x hx => h x (List.mem_cons_of_mem _ hx)

/-- C6: with at least one worker unit (a member `m` of the reported delays
that is minimal among them), each reported delay lying strictly below
`max 1 stagger_range_ms` as `stagger_client` guarantees, and a raw elapsed
time representable in `u128` and at least the minimum delay (true of real
wall time, which includes that worker's sleep), the reported submission
duration is the raw elapsed time minus the minimum observed delay. -/
theorem submit_requests_duration_subtracts_min_delay
    (stagger_range_ms raw_elapsed_ms m : Nat) (delays : List Nat)
    (hmem : m ∈ delays) (hmin : ∀ x ∈ delays, m ≤ x)
    (hstagger : ∀ x ∈ delays, x < max 1 stagger_range_ms)
    (hraw : m ≤ raw_elapsed_ms) (hrepr : raw_elapsed_ms < U128) :
    submit_requests_duration stagger_range_ms raw_elapsed_ms delays =
      raw_elapsed_ms - m := by
  unfold submit_requests_duration
  have hfle : delays.foldl min stagger_range_ms ≤ m :=
    foldl_min_le_mem delays stagger_range_ms m hmem
  by_cases hr : stagger_range_ms = 0
  · subst hr
    have hm0 : m = 0 := by
      have := hstagger m hmem
      omega
    have hf0 : delays.foldl min 0 = 0 :=
      Nat.le_antisymm (by omega) (Nat.zero_le _)
    rw [hf0, hm0]
    simp
  · have hr1 : 1 ≤ stagger_range_ms := by omega
    have hmax : max 1 stagger_range_ms = stagger_range_ms :=
      max_eq_right hr1
    have hlt : m < stagger_range_ms := by
      have := hstagger m hmem
      omega
    have hgef : m ≤ delays.foldl min stagger_range_ms :=
      le_foldl_min delays stagger_range_ms m (le_of_lt hlt) hmin
    have hfeq : delays.foldl min stagger_range_ms = m :=
      Nat.le_antisymm hfle hgef
    rw [hfeq, if_pos hlt]
    exact wrapping_sub_u128_of_le raw_elapsed_ms m hraw hrepr

/-- Witness for C6: scenario C of the specification — stagger range 50 ms,
worker delays 10 ms and 30 ms, raw elapsed 200 ms → reported 190 ms. -/
theorem submit_requests_duration_subtracts_min_delay_witness :
    10 ∈ [10, 30] ∧
      submit_requests_duration 50 200 [10, 30] = 200 - 10 :=
  ⟨by decide,
    submit_requests_duration_subtracts_min_delay 50 200 10 [10, 30]
      (by decide) (by decide) (by decide) (by decide) (by decide)⟩

/-! Case equations for one pass of the reconciliation loop. -/

lemma checkTxnLoop_cons_no_prev (sync prev : SeqMap) (c u : Nat)
    (a : AccountData) (rest : List AccountData)
    (hp : prev a.address = none) :
    checkTxnLoop sync prev c u (a :: rest) = .panicked prev (a :: rest) := by
  simp [checkTxnLoop, hp]

lemma checkTxnLoop_cons_no_sync (sync prev : SeqMap) (c u : Nat)
    (a : AccountData) (rest : List AccountData) (prior : Nat)
    (hp : prev a.address = some prior) (hs : sync a.address = none) :
    checkTxnLoop sync prev c u (a :: rest) = .panicked prev (a :: rest) := by
  simp [checkTxnLoop, hp, hs]

lemma checkTxnLoop_cons_low_local (sync prev : SeqMap) (c u : Nat)
    (a : AccountData) (rest : List AccountData) (prior synced : Nat)
    (hp : prev a.address = some prior) (hs : sync a.address = some synced)
    (h1 : a.sequence_number < synced) :
    checkTxnLoop sync prev c u (a :: rest) = .panicked prev (a :: rest) := by
  simp [checkTxnLoop, hp, hs, h1]

lemma checkTxnLoop_cons_low_sync (sync prev : SeqMap) (c u : Nat)
    (a : AccountData) (rest : List AccountData) (prior synced : Nat)
    (hp : prev a.address = some prior) (hs : sync a.address = some synced)
    (h1 : ¬ a.sequence_number < synced) (h2 : synced < prior) :
    checkTxnLoop sync prev c u (a :: rest) = .panicked prev (a :: rest) := by
  simp [checkTxnLoop, hp, hs, h1, h2]

lemma checkTxnLoop_cons_step (sync prev : SeqMap) (c u : Nat)
    (a : AccountData) (rest : List AccountData) (prior synced : Nat)
    (hp : prev a.address = some prior) (hs : sync a.address = some synced)
    (h1 : ¬ a.sequence_number < synced) (h2 : ¬ synced < prior) :
    checkTxnLoop sync prev c u (a :: rest) =
      match checkTxnLoop sync (updateMap prev a.address synced)
          ((c + (synced - prior)) % U64)
          ((u + (a.sequence_number - synced)) % U64) rest with
      | .ok p s c2 u2 =>
        .ok p ({ a with sequence_number := synced } :: s) c2 u2
      | .panicked p s =>
        .panicked p ({ a with sequence_number := synced } :: s) := by
  simp [checkTxnLoop, hp, hs, h1, h2]

/-! Structural facts about the reconciliation loop. -/

lemma checkTxnLoop_prevOf_cases (sync : SeqMap) (l : List AccountData) :
    ∀ (prev : SeqMap) (c u x : Nat),
      (checkTxnLoop sync prev c u l).prevOf x = prev x ∨
        (checkTxnLoop sync prev c u l).prevOf x = sync x := by
  induction l with
  | nil => intro prev c u x; left; rfl
  | cons a rest ih =>
    intro prev c u x
    cases hp : prev a.address with
    | none => rw [checkTxnLoop_cons_no_prev sync prev c u a rest hp]; left; rfl
    | some prior =>
      cases hs : sync a.address with
      | none =>
        rw [checkTxnLoop_cons_no_sync sync prev c u a rest prior hp hs]
        left; rfl
      | some synced =>
        by_cases h1 : a.sequence_number < synced
        · rw [checkTxnLoop_cons_low_local sync prev c u a rest prior synced
            hp hs h1]
          left; rfl
        · by_cases h2 : synced < prior
          · rw [checkTxnLoop_cons_low_sync sync prev c u a rest prior synced
              hp hs h1 h2]
            left; rfl
          · rw [checkTxnLoop_cons_step sync prev c u a rest prior synced
              hp hs h1 h2]
            have hrec := ih (updateMap prev a.address synced)
              ((c + (synced - prior)) % U64)
              ((u + (a.sequence_number - synced)) % U64) x
            have hup : updateMap prev a.address synced x = prev x ∨
                updateMap prev a.address synced x = sync x := by
              by_cases hx : x = a.address
              · right
                simp only [updateMap, if_pos hx]
                rw [hx, hs]
              · left
                simp only [updateMap, if_neg hx]
            cases hm : checkTxnLoop sync (updateMap prev a.address synced)
                ((c + (synced - prior)) % U64)
                ((u + (a.sequence_number - synced)) % U64) rest with
            | ok p s c2 u2 =>
              rw [hm] at hrec
              simp only [CheckResult.prevOf] at hrec ⊢
              rcases hrec with h | h
              · rw [h]; exact hup
              · right; exact h
            | panicked p s =>
              rw [hm] at hrec
              simp only [CheckResult.prevOf] at hrec ⊢
              rcases hrec with h | h
              · rw [h]; exact hup
              · right; exact h

lemma checkTxnLoop_ok_resets (sync : SeqMap) (l : List AccountData) :
    ∀ (prev : SeqMap) (c u : Nat),
      (checkTxnLoop sync prev c u l).isOkB = true →
      ∀ a ∈ (checkTxnLoop sync prev c u l).sendersOf,
        sync a.address = some a.sequence_number ∧
          (checkTxnLoop sync prev c u l).prevOf a.address =
            some a.sequence_number := by
  induction l with
  | nil =>
    intro prev c u _ a ha
    simp only [checkTxnLoop, CheckResult.sendersOf] at ha
    cases ha
  | cons hd rest ih =>
    intro prev c u hok a ha
    cases hp : prev hd.address with
    | none =>
      rw [checkTxnLoop_cons_no_prev sync prev c u hd rest hp] at hok
      cases hok
    | some prior =>
      cases hs : sync hd.address with
      | none =>
        rw [checkTxnLoop_cons_no_sync sync prev c u hd rest prior hp hs] at hok
        cases hok
      | some synced =>
        by_cases h1 : hd.sequence_number < synced
        · rw [checkTxnLoop_cons_low_local sync prev c u hd rest prior synced
            hp hs h1] at hok
          cases hok
        · by_cases h2 : synced < prior
          · rw [checkTxnLoop_cons_low_sync sync prev c u hd rest prior synced
              hp hs h1 h2] at hok
            cases hok
          · rw [checkTxnLoop_cons_step sync prev c u hd rest prior synced
              hp hs h1 h2] at hok ha ⊢
            cases hm : checkTxnLoop sync (updateMap prev hd.address synced)
                ((c + (synced - prior)) % U64)
                ((u + (hd.sequence_number - synced)) % U64) rest with
            | panicked p s =>
              rw [hm] at hok
              simp [CheckResult.isOkB] at hok
            | ok p s c2 u2 =>
              rw [hm] at ha
              simp only [CheckResult.sendersOf, List.mem_cons] at ha
              simp only [CheckResult.prevOf]
              rcases ha with ha | ha
              · subst ha
                refine ⟨hs, ?_⟩
                have hcase := checkTxnLoop_prevOf_cases sync rest
                  (updateMap prev hd.address synced)
                  ((c + (synced - prior)) % U64)
                  ((u + (hd.sequence_number - synced)) % U64) hd.address
                rw [hm] at hcase
                simp only [CheckResult.prevOf] at hcase
                rcases hcase with h | h
                · rw [h]
                  simp [updateMap]
                · rw [h]
                  exact hs
              · have hrec := ih (updateMap prev hd.address synced)
                  ((c + (synced - prior)) % U64)
                  ((u + (hd.sequence_number - synced)) % U64)
                rw [hm] at hrec
                simp only [CheckResult.isOkB, CheckResult.sendersOf,
                  CheckResult.prevOf] at hrec
                exact hrec trivial a ha

/-- C2: whenever `check_txn_results` returns normally, every sender in the
reconciled senders slice has its local sequence number equal to the synced
sequence number supplied for its address, and the prior-sequence table entry
for that address holds the same synced value. -/
theorem check_txn_results_resets_to_synced (b : Benchmarker)
    (senders : List AccountData) (sync : SeqMap)
    (h : (check_txn_results b senders sync).isOkB = true) :
    ∀ a ∈ (check_txn_results b senders sync).sendersOf,
      sync a.address = some a.sequence_number ∧
        (check_txn_results b senders sync).prevOf a.address =
          some a.sequence_number :=
  checkTxnLoop_ok_resets sync senders b.prev_sequence_numbers 0 0 h

/-- Witness for C2: prior 5, synced 8, local 10 — after reconciliation the
sender and the table entry both hold 8. -/
theorem check_txn_results_resets_to_synced_witness :
    map8 (0 : Nat) = some 8 ∧
      (check_txn_results wexBench [⟨0, 10⟩] map8).prevOf 0 = some 8 :=
  check_txn_results_resets_to_synced wexBench [⟨0, 10⟩] map8 (by decide)
    ⟨0, 8⟩ (by decide)

lemma checkTxnLoop_ok_sums (sync : SeqMap) (l : List AccountData) :
    ∀ (prev : SeqMap) (c u : Nat), c < U64 → u < U64 →
      (l.map (fun a => a.address)).Nodup →
      (∀ a ∈ l, (prev a.address).isSome = true ∧
        (sync a.address).isSome = true ∧
        (prev a.address).getD 0 ≤ (sync a.address).getD 0 ∧
        (sync a.address).getD 0 ≤ a.sequence_number) →
      ∃ p s, checkTxnLoop sync prev c u l =
        .ok p s
          ((c + (l.map fun a =>
            (sync a.address).getD 0 - (prev a.address).getD 0).sum) % U64)
          ((u + (l.map fun a =>
            a.sequence_number - (sync a.address).getD 0).sum) % U64) := by
  induction l with
  | nil =>
    intro prev c u hc hu _ _
    refine ⟨prev, [], ?_⟩
    simp [checkTxnLoop, Nat.mod_eq_of_lt hc, Nat.mod_eq_of_lt hu]
  | cons a rest ih =>
    intro prev c u hc hu hnodup hinv
    obtain ⟨hps, hss, hle1, hle2⟩ := hinv a (List.mem_cons_self a rest)
    obtain ⟨prior, hp⟩ := Option.isSome_iff_exists.mp hps
    obtain ⟨synced, hs⟩ := Option.isSome_iff_exists.mp hss
    rw [hp, hs] at hle1
    rw [hs] at hle2
    simp only [Option.getD_some] at hle1 hle2
    have haddr : ∀ x ∈ rest, x.address ≠ a.address := by
      intro x hx heq
      have hmm : a.address ∈ rest.map (fun y => y.address) :=
        List.mem_map.mpr ⟨x, hx, heq⟩
      exact (List.nodup_cons.mp hnodup).1 hmm
    have hprev1 : ∀ x ∈ rest,
        updateMap prev a.address synced x.address = prev x.address := by
      intro x hx
      simp only [updateMap, if_neg (haddr x hx)]
    obtain ⟨p, s, hrec⟩ := ih (updateMap prev a.address synced)
      ((c + (synced - prior)) % U64)
      ((u + (a.sequence_number - synced)) % U64)
      (Nat.mod_lt _ (by decide)) (Nat.mod_lt _ (by decide))
      (List.nodup_cons.mp hnodup).2
      (fun x hx => by
        rw [hprev1 x hx]
        exact hinv x (List.mem_cons_of_mem a hx))
    have hsum1 : (rest.map fun x => (sync x.address).getD 0 -
        (updateMap prev a.address synced x.address).getD 0) =
        rest.map fun x =>
          (sync x.address).getD 0 - (prev x.address).getD 0 :=
      List.map_congr_left (fun x hx => by rw [hprev1 x hx])
    rw [hsum1] at hrec
    refine ⟨p, { a with sequence_number := synced } :: s, ?_⟩
    rw [checkTxnLoop_cons_step sync prev c u a rest prior synced hp hs
      (not_lt.mpr hle2) (not_lt.mpr hle1), hrec]
    simp only [List.map_cons, List.sum_cons, hp, hs, Option.getD_some,
      CheckResult.ok.injEq]
    refine ⟨trivial, trivial, ?_, ?_⟩
    · rw [Nat.mod_add_mod, Nat.add_assoc]
    · rw [Nat.mod_add_mod, Nat.add_assoc]

/-- C1 counterexample: two senders, each with `prior = 0 ≤ synced = 2 ^ 63 ≤
local = 2 ^ 63`, reconcile without any panic, yet the returned committed
count is `0` while the sum over senders of `(synced − prior)` is `2 ^ 64`:
the `u64` accumulator `committed_txns` wrapped around, so the returned count
is not the sum the claim states. -/
theorem check_txn_results_sum_overflow_cx :
    (check_txn_results ovBench ovSenders ovSync).isOkB = true ∧
      (check_txn_results ovBench ovSenders ovSync).committedOf = 0 ∧
      (ovSenders.map fun a =>
        (ovSync a.address).getD 0 - (ovPrev a.address).getD 0).sum = 2 ^ 64 ∧
      (0 : Nat) ≠ 2 ^ 64 := by
  decide

/-- C1 (amended): for senders with pairwise distinct addresses (the data
model treats the address as a unique key), all present in both tables and
satisfying `prior ≤ synced ≤ local`, and whose total committed and
uncommitted deltas each fit in a `u64` (below `2 ^ 64`; beyond that the
`u64` accumulators wrap around), `check_txn_results` returns normally with
`committed = Σ (synced − prior)` and `uncommitted = Σ (local − synced)`;
in particular prior 5, synced 8, local 10 yields committed 3 and
uncommitted 2 (see the witness). -/
theorem check_txn_results_counts_eq_sums (b : Benchmarker)
    (senders : List AccountData) (sync : SeqMap)
    (hnodup : (senders.map (fun a => a.address)).Nodup)
    (hinv : ∀ a ∈ senders,
      (b.prev_sequence_numbers a.address).isSome = true ∧
        (sync a.address).isSome = true ∧
        (b.prev_sequence_numbers a.address).getD 0 ≤ (sync a.address).getD 0 ∧
        (sync a.address).getD 0 ≤ a.sequence_number)
    (hcfit : (senders.map fun a =>
      (sync a.address).getD 0 -
        (b.prev_sequence_numbers a.address).getD 0).sum < U64)
    (hufit : (senders.map fun a =>
      a.sequence_number - (sync a.address).getD 0).sum < U64) :
    (check_txn_results b senders sync).isOkB = true ∧
      (check_txn_results b senders sync).committedOf =
        (senders.map fun a =>
          (sync a.address).getD 0 -
            (b.prev_sequence_numbers a.address).getD 0).sum ∧
      (check_txn_results b senders sync).uncommittedOf =
        (senders.map fun a =>
          a.sequence_number - (sync a.address).getD 0).sum := by
  obtain ⟨p, s, h⟩ := checkTxnLoop_ok_sums sync senders
    b.prev_sequence_numbers 0 0 (by decide) (by decide) hnodup hinv
  unfold check_txn_results
  rw [h]
  simp only [CheckResult.isOkB, CheckResult.committedOf,
    CheckResult.uncommittedOf, Nat.zero_add]
  exact ⟨trivial, Nat.mod_eq_of_lt hcfit, Nat.mod_eq_of_lt hufit⟩

/-- Witness for C1 (amended): scenario B of the specification — a single
account with prior 5, synced 8, local 10 yields committed 3, uncommitted 2. -/
theorem check_txn_results_counts_eq_sums_witness :
    (check_txn_results wexBench [⟨0, 10⟩] map8).isOkB = true ∧
      (check_txn_results wexBench [⟨0, 10⟩] map8).committedOf = 3 ∧
      (check_txn_results wexBench [⟨0, 10⟩] map8).uncommittedOf = 2 :=
  check_txn_results_counts_eq_sums wexBench [⟨0, 10⟩] map8 (by decide)
    (by decide) (by decide) (by decide)

lemma checkTxnLoop_applied_noop (sync : SeqMap) (l : List AccountData) :
    ∀ (prev : SeqMap) (c u : Nat), c < U64 → u < U64 →
      (∀ a ∈ l, prev a.address = some a.sequence_number ∧
        sync a.address = some a.sequence_number) →
      (checkTxnLoop sync prev c u l).isOkB = true ∧
        (checkTxnLoop sync prev c u l).committedOf = c ∧
        (checkTxnLoop sync prev c u l).uncommittedOf = u := by
  induction l with
  | nil =>
    intro prev c u _ _ _
    exact ⟨rfl, rfl, rfl⟩
  | cons a rest ih =>
    intro prev c u hc hu happ
    obtain ⟨hp, hs⟩ := happ a (List.mem_cons_self a rest)
    rw [checkTxnLoop_cons_step sync prev c u a rest a.sequence_number
      a.sequence_number hp hs (lt_irrefl _) (lt_irrefl _)]
    have hstep : (c + (a.sequence_number - a.sequence_number)) % U64 = c := by
      rw [Nat.sub_self, Nat.add_zero]
      exact Nat.mod_eq_of_lt hc
    have hstep2 :
        (u + (a.sequence_number - a.sequence_number)) % U64 = u := by
      rw [Nat.sub_self, Nat.add_zero]
      exact Nat.mod_eq_of_lt hu
    have happ2 : ∀ x ∈ rest,
        updateMap prev a.address a.sequence_number x.address =
          some x.sequence_number ∧ sync x.address = some x.sequence_number := by
      intro x hx
      obtain ⟨hxp, hxs⟩ := happ x (List.mem_cons_of_mem a hx)
      refine ⟨?_, hxs⟩
      by_cases hxa : x.address = a.address
      · have h1 : sync x.address = sync a.address := by rw [hxa]
        rw [hxs, hs] at h1
        simp only [updateMap, if_pos hxa]
        rw [Option.some_inj.mp h1]
      · simp only [updateMap, if_neg hxa]
        exact hxp
    have hrec := ih (updateMap prev a.address a.sequence_number) c u hc hu
      happ2
    rw [hstep, hstep2]
    cases hm : checkTxnLoop sync (updateMap prev a.address a.sequence_number)
        c u rest with
    | panicked p s =>
      rw [hm] at hrec
      simp [CheckResult.isOkB] at hrec
    | ok p s c2 u2 =>
      rw [hm] at hrec
      simp only [CheckResult.isOkB, CheckResult.committedOf,
        CheckResult.uncommittedOf] at hrec ⊢
      exact hrec

/-- C3: if the synced sequence numbers have already been applied — every
sender is in both tables with `prior = local = synced` — then a second
`check_txn_results` with the same synced map returns normally with
`committed = 0` and `uncommitted = 0`. -/
theorem check_txn_results_idempotent (b : Benchmarker)
    (senders : List AccountData) (sync : SeqMap)
    (happlied : ∀ a ∈ senders,
      b.prev_sequence_numbers a.address = some a.sequence_number ∧
        sync a.address = some a.sequence_number) :
    (check_txn_results b senders sync).isOkB = true ∧
      (check_txn_results b senders sync).committedOf = 0 ∧
      (check_txn_results b senders sync).uncommittedOf = 0 :=
  checkTxnLoop_applied_noop sync senders b.prev_sequence_numbers 0 0
    (by decide) (by decide) happlied

/-- Witness for C3: the table and the sender already hold the synced value
8, so re-reconciling reports 0 committed and 0 uncommitted. -/
theorem check_txn_results_idempotent_witness :
    (check_txn_results appBench [⟨0, 8⟩] map8).isOkB = true ∧
      (check_txn_results appBench [⟨0, 8⟩] map8).committedOf = 0 ∧
      (check_txn_results appBench [⟨0, 8⟩] map8).uncommittedOf = 0 :=
  check_txn_results_idempotent appBench [⟨0, 8⟩] map8 (by decide)

lemma checkTxnLoop_ok_all_present (sync : SeqMap) (l : List AccountData) :
    ∀ (prev : SeqMap) (c u : Nat),
      (checkTxnLoop sync prev c u l).isOkB = true →
      ∀ a ∈ l, (prev a.address).isSome = true ∧
        (sync a.address).isSome = true := by
  induction l with
  | nil => intro prev c u _ a ha; cases ha
  | cons hd rest ih =>
    intro prev c u hok a ha
    cases hp : prev hd.address with
    | none =>
      rw [checkTxnLoop_cons_no_prev sync prev c u hd rest hp] at hok
      cases hok
    | some prior =>
      cases hs : sync hd.address with
      | none =>
        rw [checkTxnLoop_cons_no_sync sync prev c u hd rest prior hp hs] at hok
        cases hok
      | some synced =>
        by_cases h1 : hd.sequence_number < synced
        · rw [checkTxnLoop_cons_low_local sync prev c u hd rest prior synced
            hp hs h1] at hok
          cases hok
        · by_cases h2 : synced < prior
          · rw [checkTxnLoop_cons_low_sync sync prev c u hd rest prior synced
              hp hs h1 h2] at hok
            cases hok
          · rw [checkTxnLoop_cons_step sync prev c u hd rest prior synced
              hp hs h1 h2] at hok
            cases hm : checkTxnLoop sync (updateMap prev hd.address synced)
                ((c + (synced - prior)) % U64)
                ((u + (hd.sequence_number - synced)) % U64) rest with
            | panicked p s =>
              rw [hm] at hok
              simp [CheckResult.isOkB] at hok
            | ok p s c2 u2 =>
              rcases List.mem_cons.mp ha with haeq | hat
              · subst haeq
                rw [hp, hs]
                exact ⟨rfl, rfl⟩
              · rw [hm] at hok
                have hrec := ih (updateMap prev hd.address synced)
                  ((c + (synced - prior)) % U64)
                  ((u + (hd.sequence_number - synced)) % U64)
                rw [hm] at hrec
                obtain ⟨hup, hsy⟩ := hrec rfl a hat
                refine ⟨?_, hsy⟩
                by_cases hxa : a.address = hd.address
                · rw [hxa, hp]; rfl
                · simp only [updateMap, if_neg hxa] at hup
                  exact hup

/-- C9: when a sender's address is absent from the prior-sequence table
(never registered) or from the queried synced map, `check_txn_results`
panics rather than returning, `submit_requests_and_wait_txns_committed`
(which calls it unconditionally) propagates the panic, and so does
`mint_accounts` applied to that account. -/
theorem check_txn_results_missing_sender_panics (b : Benchmarker)
    (senders : List AccountData) (a : AccountData) (num_requests : Nat)
    (submit_rate : Option Nat) (o : RoundOracle)
    (hmem : a ∈ senders)
    (habs : b.prev_sequence_numbers a.address = none ∨
      o.sync_sequence_numbers a.address = none) :
    (check_txn_results b senders o.sync_sequence_numbers).isOkB = false ∧
      submit_requests_and_wait_txns_committed b num_requests senders
        submit_rate o = none ∧
      mint_accounts b num_requests a o = none := by
  have key : ∀ b2 : Benchmarker,
      b2.prev_sequence_numbers = b.prev_sequence_numbers →
      ∀ l, a ∈ l →
      (check_txn_results b2 l o.sync_sequence_numbers).isOkB = false := by
    intro b2 hb2 l hl
    cases hok : (check_txn_results b2 l o.sync_sequence_numbers).isOkB with
    | false => rfl
    | true =>
      have hpres := checkTxnLoop_ok_all_present o.sync_sequence_numbers l
        b2.prev_sequence_numbers 0 0 hok a hl
      rcases habs with h | h
      · rw [hb2, h] at hpres
        simp at hpres
      · rw [h] at hpres
        simp at hpres
  have h1 := key b rfl senders hmem
  have h2 : submit_requests_and_wait_txns_committed b num_requests senders
      submit_rate o = none := by
    simp only [submit_requests_and_wait_txns_committed]
    cases hres : check_txn_results b senders o.sync_sequence_numbers with
    | ok p s c u =>
      rw [hres] at h1
      simp [CheckResult.isOkB] at h1
    | panicked p s => rfl
  have h1b := key { b with stagger_range_ms := 1 } rfl [a] (by simp)
  have hsub : submit_requests_and_wait_txns_committed
      { b with stagger_range_ms := 1 } num_requests [a] (some u64_max) o =
      none := by
    simp only [submit_requests_and_wait_txns_committed]
    cases hres : check_txn_results { b with stagger_range_ms := 1 } [a]
        o.sync_sequence_numbers with
    | ok p s c u =>
      rw [hres] at h1b
      simp [CheckResult.isOkB] at h1b
    | panicked p s => rfl
  have h3 : mint_accounts b num_requests a o = none := by
    simp only [mint_accounts]
    rw [hsub]
  exact ⟨h1, h2, h3⟩

/-- Witness for C9: an empty table and an empty synced map — all three
operations fail for a sender that was never registered. -/
theorem check_txn_results_missing_sender_panics_witness :
    (check_txn_results ⟨50, mapNone, 100⟩ [⟨0, 5⟩]
      emptyOracle.sync_sequence_numbers).isOkB = false ∧
      submit_requests_and_wait_txns_committed ⟨50, mapNone, 100⟩ 1 [⟨0, 5⟩]
        none emptyOracle = none ∧
      mint_accounts ⟨50, mapNone, 100⟩ 1 ⟨0, 5⟩ emptyOracle = none :=
  check_txn_results_missing_sender_panics ⟨50, mapNone, 100⟩ [⟨0, 5⟩] ⟨0, 5⟩
    1 none emptyOracle (by decide) (Or.inl rfl)

/-- C4 counterexample: sender 0 (prior 5, synced 8, local 10) precedes
sender 1, whose synced value 3 violates `synced ≥ prior = 5`.  The call
fails fatally (no counts are returned), but tracked state HAS been updated
by the failed operation: sender 0's prior-table entry moved from 5 to 8 and
its local sequence number moved from 10 to 8 before the panic. -/
theorem check_txn_results_partial_update_cx :
    (check_txn_results vioBench vioSenders vioSync).isOkB = false ∧
      (check_txn_results vioBench vioSenders vioSync).prevOf 0 = some 8 ∧
      vioPrev 0 = some 5 ∧
      ((check_txn_results vioBench vioSenders vioSync).sendersOf.map
        (fun a => a.sequence_number)) = [8, 10] ∧
      (vioSenders.map (fun a => a.sequence_number)) = [10, 10] := by
  decide

lemma checkTxnLoop_panic_after_prefix (sync : SeqMap)
    (pre : List AccountData) :
    ∀ (prev : SeqMap) (c u : Nat) (bad : AccountData)
      (post : List AccountData) (pb qb : Nat),
      preOk sync prev pre = true →
      reconcilePrev sync prev pre bad.address = some pb →
      sync bad.address = some qb →
      (bad.sequence_number < qb ∨ qb < pb) →
      checkTxnLoop sync prev c u (pre ++ bad :: post) =
        .panicked (reconcilePrev sync prev pre)
          (reconcileSenders sync pre ++ bad :: post) := by
  induction pre with
  | nil =>
    intro prev c u bad post pb qb _ hpb hqb hviol
    simp only [reconcilePrev] at hpb ⊢
    simp only [reconcileSenders, List.nil_append]
    by_cases h1 : bad.sequence_number < qb
    · exact checkTxnLoop_cons_low_local sync prev c u bad post pb qb hpb
        hqb h1
    · have h2 : qb < pb := by
        rcases hviol with h | h
        · exact absurd h h1
        · exact h
      exact checkTxnLoop_cons_low_sync sync prev c u bad post pb qb hpb hqb
        h1 h2
  | cons a pre ih =>
    intro prev c u bad post pb qb hpre hpb hqb hviol
    cases hp : prev a.address with
    | none => simp [preOk, hp] at hpre
    | some p0 =>
      cases hs : sync a.address with
      | none => simp [preOk, hp, hs] at hpre
      | some q0 =>
        rw [preOk, hp, hs] at hpre
        simp only [Bool.and_eq_true, decide_eq_true_eq] at hpre
        obtain ⟨⟨hle1, hle2⟩, hpre2⟩ := hpre
        have hgd : (sync a.address).getD 0 = q0 := by rw [hs]; rfl
        rw [List.cons_append,
          checkTxnLoop_cons_step sync prev c u a (pre ++ bad :: post) p0 q0
            hp hs (not_lt.mpr hle1) (not_lt.mpr hle2)]
        have hpb2 : reconcilePrev sync
            (updateMap prev a.address q0) pre bad.address = some pb := by
          rw [reconcilePrev, hgd] at hpb
          exact hpb
        have hrec := ih (updateMap prev a.address q0)
          ((c + (q0 - p0)) % U64)
          ((u + (a.sequence_number - q0)) % U64)
          bad post pb qb hpre2 hpb2 hqb hviol
        rw [hrec]
        simp only [reconcilePrev, reconcileSenders, hgd, List.cons_append]

/-- C4 (amended): when some sender violates the reconciliation invariant
(`local < synced` or `synced < prior`), `check_txn_results` fails fatally
and returns no counts, but the operation is not state-free: every sender
processed before the first violating one has already had its prior-table
entry and its local sequence number overwritten with its synced value; the
violating sender and all later ones are left unmodified. -/
theorem check_txn_results_panic_partial_state (b : Benchmarker)
    (pre post : List AccountData) (bad : AccountData) (sync : SeqMap)
    (pb qb : Nat)
    (hpre : preOk sync b.prev_sequence_numbers pre = true)
    (hpb : reconcilePrev sync b.prev_sequence_numbers pre bad.address =
      some pb)
    (hqb : sync bad.address = some qb)
    (hviol : bad.sequence_number < qb ∨ qb < pb) :
    check_txn_results b (pre ++ bad :: post) sync =
      .panicked (reconcilePrev sync b.prev_sequence_numbers pre)
        (reconcileSenders sync pre ++ bad :: post) :=
  checkTxnLoop_panic_after_prefix sync pre b.prev_sequence_numbers 0 0 bad
    post pb qb hpre hpb hqb hviol

/-- Witness for C4 (amended): sender 0 reconciles (prior 5 → 8), sender 1
(synced 3 < prior 5) triggers the panic with sender 0 already updated. -/
theorem check_txn_results_panic_partial_state_witness :
    preOk vioSync vioPrev [⟨0, 10⟩] = true ∧
      check_txn_results vioBench ([⟨0, 10⟩] ++ ⟨1, 10⟩ :: []) vioSync =
        .panicked (reconcilePrev vioSync vioPrev [⟨0, 10⟩])
          (reconcileSenders vioSync [⟨0, 10⟩] ++ ⟨1, 10⟩ :: []) :=
  ⟨by decide,
    check_txn_results_panic_partial_state vioBench [⟨0, 10⟩] [] ⟨1, 10⟩
      vioSync 5 3 (by decide) (by rfl) (by rfl) (Or.inr (by decide))⟩

/-- C7: given that the reconciliation of the minting round returns normally
with committed count `c`, and the round counts are well-formed
(`c ≤ accepted ≤ submitted < 2 ^ 64`, the boundary contract of the submit
collaborator, which only returns accepted responses for submitted
requests), `mint_accounts` panics exactly when some mint request was
rejected (`submitted > accepted`) or left uncommitted (`accepted > c`);
equivalently it returns normally exactly when every mint request in the
round is both accepted and committed. -/
theorem mint_accounts_fails_iff_rejected_or_uncommitted (b : Benchmarker)
    (num_mint_requests : Nat) (faucet_account : AccountData) (o : RoundOracle)
    (p : SeqMap) (s : List AccountData) (c u : Nat)
    (hcheck : check_txn_results { b with stagger_range_ms := 1 }
      [faucet_account] o.sync_sequence_numbers = .ok p s c u)
    (hca : c ≤ o.num_accepted) (han : o.num_accepted ≤ num_mint_requests)
    (hn : num_mint_requests < U64) :
    mint_accounts b num_mint_requests faucet_account o = none ↔
      (num_mint_requests > o.num_accepted ∨ o.num_accepted > c) := by
  simp only [mint_accounts, submit_requests_and_wait_txns_committed]
  rw [hcheck]
  simp only [has_rejected_txns, has_uncommitted_txns]
  rw [wrapping_sub_u64_of_le _ _ han hn,
    wrapping_sub_u64_of_le _ _ hca (lt_of_le_of_lt han hn)]
  have hcond : (decide (0 < num_mint_requests - o.num_accepted) ||
      decide (0 < o.num_accepted - c)) = true ↔
      (num_mint_requests > o.num_accepted ∨ o.num_accepted > c) := by
    simp only [Bool.or_eq_true, decide_eq_true_eq]
    omega
  by_cases hc2 : num_mint_requests > o.num_accepted ∨ o.num_accepted > c
  · rw [if_pos (hcond.mpr hc2)]
    simp [hc2]
  · rw [if_neg (fun hx => hc2 (hcond.mp hx))]
    constructor
    · intro h
      exact absurd h (Option.some_ne_none _)
    · intro h
      exact absurd h hc2

/-- Witness for C7: scenario E — 3 mint requests, only 1 accepted, 0
committed, so `mint_accounts` fails fatally. -/
theorem mint_accounts_fails_iff_rejected_or_uncommitted_witness :
    mint_accounts wexBench 3 ⟨0, 6⟩ mintBadOracle = none :=
  (mint_accounts_fails_iff_rejected_or_uncommitted wexBench 3 ⟨0, 6⟩
    mintBadOracle (updateMap map5 0 5) [⟨0, 5⟩] 0 1 (by rfl) (by decide)
    (by decide) (by decide)).mpr (Or.inl (by decide))

/-- C10: on every normal return of `mint_accounts` the configuration fields
are unchanged: `stagger_range_ms` is restored to its pre-call value after
being temporarily forced to 1, and `submit_rate` is never modified (the
flood rate is passed as a per-call override, not stored). -/
theorem mint_accounts_preserves_config (b : Benchmarker)
    (num_mint_requests : Nat) (faucet_account : AccountData) (o : RoundOracle)
    (b2 : Benchmarker) (f2 : AccountData)
    (h : mint_accounts b num_mint_requests faucet_account o = some (b2, f2)) :
    b2.stagger_range_ms = b.stagger_range_ms ∧
      b2.submit_rate = b.submit_rate := by
  simp only [mint_accounts, submit_requests_and_wait_txns_committed] at h
  cases hres : check_txn_results { b with stagger_range_ms := 1 }
      [faucet_account] o.sync_sequence_numbers with
  | panicked p s =>
    rw [hres] at h
    exact Option.noConfusion h
  | ok p s c u =>
    rw [hres] at h
    dsimp only at h
    split at h
    · exact Option.noConfusion h
    · injection Option.some.inj h with hb hf
      rw [← hb]
      exact ⟨rfl, rfl⟩

/-- Witness for C10: a fully successful 3-request minting round — the
returned state has the original stagger range 50 and rate 100. -/
theorem mint_accounts_preserves_config_witness :
    mint_accounts wexBench 3 ⟨0, 8⟩ mintOkOracle =
        some (mintOkBench, ⟨0, 8⟩) ∧
      mintOkBench.stagger_range_ms = wexBench.stagger_range_ms ∧
      mintOkBench.submit_rate = wexBench.submit_rate :=
  ⟨rfl,
    mint_accounts_preserves_config wexBench 3 ⟨0, 8⟩ mintOkOracle
      mintOkBench ⟨0, 8⟩ rfl⟩
